import Mathlib

/-!
Shallow embedding of the generation engine of `BartSeq2SeqLM`
(`keras_nlp/models/bart/bart_seq_2_seq_lm.py`).

Tensor conventions of the embedding:
* a float tensor of shape `[batch, seq, hidden]` (hidden states, embeddings)
  is a batch-major nested list `List (List H)` over an abstract per-position
  row type `H`;
* an int tensor of shape `[batch, seq]` (token ids) is `List (List Int)`;
* a bool tensor of shape `[batch, seq]` (padding masks) is `List (List Bool)`;
* a cache tensor of shape `[batch, num_layers, 2, len, num_heads, head_dim]`
  is a batch-major `List (List L)` whose inner list runs over the layer axis,
  with the `[2, len, num_heads, head_dim]` block abstracted as `L`;
  `tf.unstack(cache, axis=1)` is therefore `List.transpose` (giving the
  layer-major list of per-layer caches, each a batch-major `List L`) and
  `tf.stack(axis=1)` is `List.transpose` back;
* logits of shape `[batch, seq, vocab]` are `List (List V)` with the
  per-position vocabulary vector abstracted as `V`.

The backbone's layers (embedding, per-layer attention, layer norm, dropout)
are external collaborators of the code under verification; they appear as
abstract function-valued fields of the `Backbone` structure.
-/

namespace BartSeq2SeqLM

/-- Batch-major hidden-state tensor `[batch, seq, hidden]`. -/
abbrev HS (H : Type) := List (List H)

/-- Batch-major boolean padding mask `[batch, seq]`. -/
abbrev Mask := List (List Bool)

/-- Batch-major cache tensor `[batch, num_layers, 2, len, heads, head_dim]`;
the inner list runs over the layer axis. -/
abbrev Cache (L : Type) := List (List L)

/-- The external backbone collaborator: structural constants plus the layer
objects that `bart_seq_2_seq_lm.py` fetches with `backbone.get_layer(...)`.
Each layer is an abstract function on whole tensors.  `embeddingsT` models
`tf.matmul(hidden_states, token_embedding.embeddings, transpose_b=True)`,
which acts independently on each `[hidden]` row.  `zeroSelfCacheSlice` /
`zeroCrossCacheSlice` are the zero `[2, len, heads, head_dim]` blocks that
`tf.zeros` fills the two caches with (their `len` axes are
`decoder_max_length` and `encoder_max_length` respectively). -/
structure Backbone (H L V : Type) where
  numLayers : Nat
  tokenEmbedding : List (List Int) → HS H
  decoderPositionEmbedding : HS H → Option Int → HS H
  decoderEmbeddingsAdd : HS H × HS H → HS H
  decoderEmbeddingsLayerNorm : HS H → HS H
  decoderEmbeddingsDropout : HS H → HS H
  transformerDecoderLayer : Nat → HS H → HS H → Mask → List L → Option Int →
    List L → Option Int → HS H × List L × List L
  encoderPositionEmbedding : HS H → HS H
  encoderEmbeddingsAdd : HS H × HS H → HS H
  encoderEmbeddingsLayerNorm : HS H → HS H
  encoderEmbeddingsDropout : HS H → HS H
  transformerEncoderLayer : Nat → HS H → Mask → HS H
  embeddingsT : H → V
  zeroSelfCacheSlice : L
  zeroCrossCacheSlice : L

variable {H L V : Type}

/-- `call_decoder_with_cache` (lines 236–352): embed the decoder token window
with positions keyed by the self-attention update index, run every decoder
layer in order threading the per-layer cache slices, reassemble a cache tensor
only when its update index is not `None`, and project the final hidden states
to vocabulary logits. -/
def call_decoder_with_cache (bb : Backbone H L V)
    (encoder_hidden_states : HS H) (encoder_padding_mask : Mask)
    (decoder_token_ids : List (List Int))
    (self_attention_cache : Cache L)
    (self_attention_cache_update_index : Option Int)
    (cross_attention_cache : Cache L)
    (cross_attention_cache_update_index : Option Int) :
    List (List V) × HS H × Cache L × Cache L :=
  let token_embedding := bb.tokenEmbedding decoder_token_ids
  let position_embedding :=
    bb.decoderPositionEmbedding token_embedding self_attention_cache_update_index
  let x := bb.decoderEmbeddingsAdd (token_embedding, position_embedding)
  let x := bb.decoderEmbeddingsLayerNorm x
  let x := bb.decoderEmbeddingsDropout x
  -- `tf.unstack(cache, axis=1)`: layer-major list of per-layer caches.
  let self_attention_caches := self_attention_cache.transpose
  let cross_attention_caches := cross_attention_cache.transpose
  let st := (List.range bb.numLayers).foldl
    (fun (st : HS H × Cache L × Cache L) i =>
      let x := st.1
      let scs := st.2.1
      let ccs := st.2.2
      let out := bb.transformerDecoderLayer i x
        encoder_hidden_states encoder_padding_mask
        (scs.getD i []) self_attention_cache_update_index
        (ccs.getD i []) cross_attention_cache_update_index
      (out.1,
       if self_attention_cache_update_index.isSome then scs.set i out.2.1 else scs,
       if cross_attention_cache_update_index.isSome then ccs.set i out.2.2 else ccs))
    (x, self_attention_caches, cross_attention_caches)
  let hidden_states := st.1
  let self_attention_cache :=
    if self_attention_cache_update_index.isSome then st.2.1.transpose
    else self_attention_cache
  let cross_attention_cache :=
    if cross_attention_cache_update_index.isSome then st.2.2.transpose
    else cross_attention_cache
  let logits := hidden_states.map (fun row => row.map bb.embeddingsT)
  (logits, hidden_states, self_attention_cache, cross_attention_cache)

/-- `call_encoder` (lines 354–376): embed the encoder tokens and run every
encoder layer in order. -/
def call_encoder (bb : Backbone H L V)
    (token_ids : List (List Int)) (padding_mask : Mask) : HS H :=
  let token_embedding := bb.tokenEmbedding token_ids
  let position_embedding := bb.encoderPositionEmbedding token_embedding
  let x := bb.encoderEmbeddingsAdd (token_embedding, position_embedding)
  let x := bb.encoderEmbeddingsLayerNorm x
  let x := bb.encoderEmbeddingsDropout x
  (List.range bb.numLayers).foldl
    (fun x i => bb.transformerEncoderLayer i x padding_mask) x

/-- `_initialize_cache` (lines 378–401): zero caches of shape
`[batch, num_layers, 2, len, heads, head_dim]` with `len` the decoder
(resp. encoder) max length, the length axes living inside the abstract
slices.  The batch size is `tf.shape(encoder_token_ids)[0]`. -/
def _initialize_cache (bb : Backbone H L V)
    (encoder_token_ids _decoder_token_ids : List (List Int)) :
    Cache L × Cache L :=
  let batch_size := encoder_token_ids.length
  (List.replicate batch_size (List.replicate bb.numLayers bb.zeroSelfCacheSlice),
   List.replicate batch_size (List.replicate bb.numLayers bb.zeroCrossCacheSlice))

/-- External-call events recorded by the trace-instrumented variants of the
generation functions; the pure variants are their first projections. -/
inductive Event where
  | encoderPass (token_ids : List (List Int)) (padding_mask : Mask)
  | decoderStep (decoder_token_ids : List (List Int))
      (self_attention_cache_update_index : Option Int)
      (cross_attention_cache_update_index : Option Int)
  | samplerCall (prompt : List (List Int)) (index : Int)
deriving DecidableEq

/-- `_build_cache` (lines 403–434) with its external calls recorded: one
encoder pass, zero caches, one decoder pass over the entire decoder prompt
with both cache update indices `0`. -/
def _build_cacheT (bb : Backbone H L V)
    (encoder_token_ids : List (List Int)) (encoder_padding_mask : Mask)
    (decoder_token_ids : List (List Int)) :
    (HS H × HS H × Cache L × Cache L) × List Event :=
  let encoder_hidden_states :=
    call_encoder bb encoder_token_ids encoder_padding_mask
  let caches := _initialize_cache bb encoder_token_ids decoder_token_ids
  let out := call_decoder_with_cache bb encoder_hidden_states
    encoder_padding_mask decoder_token_ids
    caches.1 (some 0) caches.2 (some 0)
  ((out.2.1, encoder_hidden_states, out.2.2.1, out.2.2.2),
   [.encoderPass encoder_token_ids encoder_padding_mask,
    .decoderStep decoder_token_ids (some 0) (some 0)])

/-- `_build_cache`, pure result. -/
def _build_cache (bb : Backbone H L V)
    (encoder_token_ids : List (List Int)) (encoder_padding_mask : Mask)
    (decoder_token_ids : List (List Int)) :
    HS H × HS H × Cache L × Cache L :=
  (_build_cacheT bb encoder_token_ids encoder_padding_mask decoder_token_ids).1

/-- `tf.slice(x, [b0, b1], [s0, s1])` on a rank-2 tensor; a size of `-1`
means "to the end of the axis". -/
def tfSlice2 (x : List (List α)) (b0 b1 : Nat) (s0 s1 : Int) :
    List (List α) :=
  let rows := if s0 = -1 then x.drop b0 else (x.drop b0).take s0.toNat
  rows.map (fun r => if s1 = -1 then r.drop b1 else (r.drop b1).take s1.toNat)

/-- `tf.squeeze(x, axis=1)` on a tensor whose axis 1 has size one. -/
def tfSqueeze1 (x : List (List α)) : List α := x.flatMap (fun r => r)

/-- `repeat_tensor` (lines 530–534): repeat rows along the batch axis to
match the sample count, unless the tensor already has that many rows. -/
def repeat_tensor (batch_size num_samples : Nat) (x : List α) : List α :=
  if x.length = num_samples then x
  else x.flatMap (List.replicate (num_samples / batch_size))

/-- The `next` closure built by `generate_step` (lines 523–549), with the
decoder call it makes recorded: slice the single column at `index - 1` from
the prompt, repeat the encoder tensors and the cross-attention cache if the
sampler widened the batch, call the decoder on that one-token window with
self-attention update index `index - 1` and no cross-attention update, and
return the squeezed logits and hidden states with the updated self-attention
cache. -/
def generate_step_nextT (bb : Backbone H L V) (batch_size : Nat)
    (encoder_hidden_states : HS H) (encoder_padding_mask : Mask)
    (cross_attention_cache : Cache L)
    (prompt : List (List Int)) (cache : Cache L) (index : Int) :
    (List V × List H × Cache L) × Event :=
  let cache_index := index - 1
  let prompt := tfSlice2 prompt 0 cache_index.toNat (-1) 1
  let num_samples := prompt.length
  let out := call_decoder_with_cache bb
    (repeat_tensor batch_size num_samples encoder_hidden_states)
    (repeat_tensor batch_size num_samples encoder_padding_mask)
    prompt cache (some cache_index)
    (repeat_tensor batch_size num_samples cross_attention_cache) none
  ((tfSqueeze1 out.1, tfSqueeze1 out.2.1, out.2.2.1),
   .decoderStep prompt (some cache_index) none)

/-- The `next` closure, pure result. -/
def generate_step_next (bb : Backbone H L V) (batch_size : Nat)
    (encoder_hidden_states : HS H) (encoder_padding_mask : Mask)
    (cross_attention_cache : Cache L)
    (prompt : List (List Int)) (cache : Cache L) (index : Int) :
    List V × List H × Cache L :=
  (generate_step_nextT bb batch_size encoder_hidden_states
    encoder_padding_mask cross_attention_cache prompt cache index).1

/-- The sampler collaborator's `next(prompt, cache, index)` contract. -/
abbrev NextFn (H L V : Type) :=
  List (List Int) → Cache L → Int → List V × List H × Cache L

/-- The sampler collaborator: an external strategy invoked as
`self._sampler(next=, prompt=, cache=, index=, mask=, end_token_id=,
hidden_states=)`, returning the completed decoder token ids. -/
abbrev Sampler (H L V : Type) :=
  NextFn H L V → List (List Int) → Cache L → Int → Mask → Option Int →
    HS H → List (List Int)

/-- The four batched inputs of `generate_step`. -/
structure GenerateInputs where
  encoder_token_ids : List (List Int)
  encoder_padding_mask : Mask
  decoder_token_ids : List (List Int)
  decoder_padding_mask : Mask

/-- The outputs of `generate_step`. -/
structure GenerateOutputs where
  decoder_token_ids : List (List Int)
  decoder_padding_mask : Mask
deriving DecidableEq

/-- `tf.math.reduce_min` over an int32 tensor; the reduction identity of an
empty tensor is the largest int32. -/
def reduceMin (l : List Int) : Int := l.foldl min 2147483647

/-- `tf.math.cumsum(x, exclusive=True)` on one row, with accumulator. -/
def cumsumExclusive (acc : Int) : List Int → List Int
  | [] => []
  | x :: xs => acc :: cumsumExclusive (acc + x) xs

/-- One row of `end_locations` (lines 565–567): positions holding
`end_token_id` that are not in the original prompt (where the original
`decoder_padding_mask` is `False`). -/
def end_locationsRow (end_token_id : Int) (ids : List Int)
    (mask : List Bool) : List Bool :=
  (ids.zip mask).map (fun p => decide (p.1 = end_token_id) && !p.2)

/-- One row of the output-mask computation of `generate_step`
(lines 562–572): mark `end_token_id` occurrences outside the original
prompt, take the exclusive cumulative sum, and invert the overflow. -/
def endMaskRow (end_token_id : Int) (ids : List Int) (mask : List Bool) :
    List Bool :=
  let end_locations := end_locationsRow end_token_id ids mask
  let end_ints := end_locations.map (fun b => if b then (1 : Int) else 0)
  let overflow := cumsumExclusive 0 end_ints
  overflow.map (fun n => !decide (n ≠ 0))

/-- `generate_step` (lines 472–580) with its external calls recorded: build
and seed the caches, start at the minimum count of already-known tokens,
hand the prompt to the sampler together with the `next` closure, then
recompute the output padding mask (end-token masking when an end token is
configured, all-ones otherwise). -/
def generate_stepT (bb : Backbone H L V) (sampler : Sampler H L V)
    (inputs : GenerateInputs) (end_token_id : Option Int) :
    GenerateOutputs × List Event :=
  let encoder_token_ids := inputs.encoder_token_ids
  let encoder_padding_mask := inputs.encoder_padding_mask
  let decoder_token_ids := inputs.decoder_token_ids
  let decoder_padding_mask := inputs.decoder_padding_mask
  let batch_size := encoder_token_ids.length
  let built := _build_cacheT bb encoder_token_ids encoder_padding_mask
    decoder_token_ids
  let hidden_states := built.1.1
  let encoder_hidden_states := built.1.2.1
  let self_attention_cache := built.1.2.2.1
  let cross_attention_cache := built.1.2.2.2
  -- Lengths of all user-inputted token ids: row sums of the mask cast to int32.
  let row_lengths := decoder_padding_mask.map
    (fun row => (row.map (fun b => if b then (1 : Int) else 0)).sum)
  -- Start at the first index that has no user-inputted id.
  let index := reduceMin row_lengths
  let new_token_ids := sampler
    (generate_step_next bb batch_size encoder_hidden_states
      encoder_padding_mask cross_attention_cache)
    decoder_token_ids self_attention_cache index decoder_padding_mask
    end_token_id hidden_states
  let out_mask := match end_token_id with
    | some e =>
        (new_token_ids.zip decoder_padding_mask).map
          (fun p => endMaskRow e p.1 p.2)
    | none =>
        -- Without early stopping, all locations will have been updated.
        new_token_ids.map (fun row => row.map (fun _ => true))
  (⟨new_token_ids, out_mask⟩,
   built.2 ++ [.samplerCall decoder_token_ids index])

/-- `generate_step`, pure result. -/
def generate_step (bb : Backbone H L V) (sampler : Sampler H L V)
    (inputs : GenerateInputs) (end_token_id : Option Int) :
    GenerateOutputs :=
  (generate_stepT bb sampler inputs end_token_id).1

/-! ### The compile / make_generate_function state machine -/

/-- The compiled generation function stored on the model: `generate_step`
itself when running eagerly, otherwise `tf.function(generate_step,
jit_compile=...)`. -/
inductive GenFn where
  | eager
  | tfFunction (jit : Bool)
deriving DecidableEq

/-- The model state that `compile` (lines 436–454) and
`make_generate_function` (lines 456–470) read and write. -/
structure LMState where
  generate_function : Option GenFn
  run_eagerly : Bool
  jit_compile : Bool
  sampler : String
deriving DecidableEq

/-- `compile` (lines 436–454): forward the execution flags (jit only when
not eager and XLA-compatible), install the requested sampler, and clear the
compiled generate function. -/
def compile (s : LMState) (run_eagerly jit_compile : Bool)
    (sampler : String) (xla_compatible : Bool) : LMState :=
  { s with
    run_eagerly := run_eagerly,
    jit_compile := jit_compile && xla_compatible && !run_eagerly,
    sampler := sampler,
    generate_function := none }

/-- `make_generate_function` (lines 456–470): return the stored handle if
present, otherwise build the function for the current execution mode, store
it, and return it. -/
def make_generate_function (s : LMState) : GenFn × LMState :=
  match s.generate_function with
  | some f => (f, s)
  | none =>
      let f := if s.run_eagerly then GenFn.eager
        else GenFn.tfFunction s.jit_compile
      (f, { s with generate_function := some f })

/-! ### Input / output normalization for `generate` (string path) -/

/-- A user-facing value on the string path of `generate`: a python `str`, a
python list of strings, or a string tensor of rank 0 or 1. -/
inductive GenValue where
  | str (s : String)
  | strList (l : List String)
  | tensor0 (s : String)
  | tensor1 (l : List String)
deriving DecidableEq

/-- `tf.convert_to_tensor` on the string path. -/
def convert_to_tensor : GenValue → GenValue
  | .str s => .tensor0 s
  | .strList l => .tensor1 l
  | x => x

/-- The inner `normalize` of `_normalize_generate_inputs` (lines 597–606):
convert strings and lists to tensors, then add a batch axis to a rank-0
tensor and remember that the input was scalar. -/
def normalize_value (x : GenValue) : GenValue × Bool :=
  let x := match x with
    | .str s => convert_to_tensor (.str s)
    | .strList l => convert_to_tensor (.strList l)
    | x => x
  match x with
  | .tensor0 s => (.tensor1 [s], true)
  | x => (x, false)

/-- An input to `generate` on the (non-dataset) string path: a single value
or a dict of values. -/
inductive GenInputs where
  | value (x : GenValue)
  | dict (kvs : List (String × GenValue))
deriving DecidableEq

/-- `_normalize_generate_inputs` (lines 582–616), non-dataset path: normalize
each value and return a single-batch list together with the scalar flag.  In
the dict branch the python loop overwrites `input_is_scalar` on every key, so
the flag of the last key wins (and stays `False` for an empty dict). -/
def _normalize_generate_inputs (inputs : GenInputs) :
    List GenInputs × Bool :=
  match inputs with
  | .dict kvs =>
      let res := kvs.map (fun kv => (kv.1, normalize_value kv.2))
      let flag := res.foldl (fun _ kv => kv.2.2) false
      ([.dict (res.map (fun kv => (kv.1, kv.2.1)))], flag)
  | .value x =>
      let r := normalize_value x
      ([.value r.1], r.2)

/-- A host-native output of `generate` on the string path: a single `str`
for scalar input, a list of `str` otherwise. -/
inductive HostValue where
  | str (s : String)
  | strList (l : List String)
deriving DecidableEq

/-- `_normalize_generate_outputs` (lines 618–648) on the string path, one
rank-1 string tensor per batch: `tf.concat(x, axis=0)`, squeeze the batch
axis away if the input was scalar (an error — `none` — unless that axis has
size one), and convert to host strings with `tensor_to_string_list`. -/
def _normalize_generate_outputs (outputs : List (List String))
    (input_is_scalar : Bool) : Option HostValue :=
  let x := outputs.flatten
  if input_is_scalar then
    match x with
    | [s] => some (.str s)
    | _ => none
  else
    some (.strList x)

/-! ### Spec-modelled sampler loop

The sampler base class is a collaborator of this file's code and its source
is not part of the excerpt; the loop below is modelled from the spec
(section 4.5) so that end-to-end properties of `generate_step` can be
stated. -/

/-- Modelled from the spec: the selection-rule write of section 4.5 — the
sampler "writes the chosen token into the prompt buffer at position
`index`", never overwriting positions the original padding mask marks as
user-supplied. -/
def writeColumn (prompt : List (List Int)) (mask : Mask) (index : Nat)
    (toks : List Int) : List (List Int) :=
  (List.range prompt.length).map (fun r =>
    let row := prompt.getD r []
    if (mask.getD r []).getD index false then row
    else row.set index (toks.getD r 0))

/-- Modelled from the spec: the early-stopping test of section 4.5 — stop
"when every row in the batch has produced the end token at some position
beyond its original known prefix"; never stop early when no end token is
configured. -/
def specDone (end_token_id : Option Int) (prompt : List (List Int))
    (mask : Mask) : Bool :=
  match end_token_id with
  | none => false
  | some e =>
      (List.range prompt.length).all (fun r =>
        let row := prompt.getD r []
        let mrow := mask.getD r []
        (List.range row.length).any (fun k =>
          decide (row.getD k (e + 1) = e) && !(mrow.getD k true)))

/-- Modelled from the spec: the sampler step loop of section 4.5 (fuelled;
returns the completed prompt and the index the loop stopped at). -/
def samplerLoopAux (select : List V → List Int) (nextFn : NextFn H L V)
    (mask : Mask) (end_token_id : Option Int) :
    Nat → List (List Int) → Cache L → Int → List (List Int) × Int
  | 0, prompt, _, index => (prompt, index)
  | fuel + 1, prompt, cache, index =>
      if specDone end_token_id prompt mask then (prompt, index)
      else
        let out := nextFn prompt cache index
        let toks := select out.1
        samplerLoopAux select nextFn mask end_token_id fuel
          (writeColumn prompt mask index.toNat toks) out.2.2 (index + 1)

/-- Modelled from the spec: a sampler driving the step loop from the shared
start index up to the static decoder maximum length (the prompt buffer's
row length), with a pluggable per-step selection rule `select`. -/
def specSamplerRun (select : List V → List Int) (nextFn : NextFn H L V)
    (prompt : List (List Int)) (cache : Cache L) (index : Int) (mask : Mask)
    (end_token_id : Option Int) : List (List Int) × Int :=
  let maxLen := (prompt.headD []).length
  samplerLoopAux select nextFn mask end_token_id
    ((maxLen - index).toNat) prompt cache index

/-- Modelled from the spec: `specSamplerRun` packaged with the sampler
calling convention of `generate_step`. -/
def specSampler (select : List V → List Int) : Sampler H L V :=
  fun nextFn prompt cache index mask end_token_id _hidden_states =>
    (specSamplerRun select nextFn prompt cache index mask end_token_id).1

/-! ### Concrete instances used to evaluate the development -/

/-- A small concrete backbone (two layers, integer "vectors") for closed
evaluations. -/
def testBackbone : Backbone Int Int Int where
  numLayers := 2
  tokenEmbedding := fun ids => ids.map (fun row => row.map (fun t => t + 1))
  decoderPositionEmbedding := fun x start =>
    x.map (fun row => row.map (fun h => h + start.getD 0))
  decoderEmbeddingsAdd := fun p =>
    (p.1.zip p.2).map (fun q => (q.1.zip q.2).map (fun r => r.1 + r.2))
  decoderEmbeddingsLayerNorm := fun x => x
  decoderEmbeddingsDropout := fun x => x
  transformerDecoderLayer := fun i x _enc _mask sc _si cc _ci =>
    (x.map (fun row => row.map (fun h => h + (i : Int) + 1)),
     sc.map (fun c => c + 1), cc.map (fun c => c + 2))
  encoderPositionEmbedding := fun x => x
  encoderEmbeddingsAdd := fun p => p.1
  encoderEmbeddingsLayerNorm := fun x => x
  encoderEmbeddingsDropout := fun x => x
  transformerEncoderLayer := fun _i x _m => x
  embeddingsT := fun h => h * 10
  zeroSelfCacheSlice := 0
  zeroCrossCacheSlice := 0

/-- A trivial external sampler (returns the prompt unchanged) for closed
evaluations of `generate_step`. -/
def testSampler : Sampler Int Int Int :=
  fun _nextFn prompt _cache _index _mask _end_token_id _hidden_states => prompt

/-! ## Theorems -/

/-! ### Helper lemmas -/

/-- A boolean row cast to int32 and summed counts its `true` entries. -/
theorem boolIndicatorSum (row : List Bool) :
    (row.map (fun b => if b then (1 : Int) else 0)).sum = row.count true := by
  induction row with
  | nil => simp
  | cons b bs ih =>
    cases b
    · simpa using ih
    · simp [ih, List.count_cons]
      ring

/-- `foldl min` over a list: the result is the seed or an element, and is a
lower bound of both. -/
theorem foldl_min_spec (l : List Int) (a : Int) :
    (l.foldl min a = a ∨ l.foldl min a ∈ l)
      ∧ l.foldl min a ≤ a ∧ ∀ x ∈ l, l.foldl min a ≤ x := by
  induction l generalizing a with
  | nil => simp
  | cons x xs ih =>
    obtain ⟨h1, h2, h3⟩ := ih (min a x)
    simp only [List.foldl_cons]
    refine ⟨?_, ?_, ?_⟩
    · rcases h1 with h | h
      · rcases min_choice a x with hm | hm
        · exact Or.inl (h.trans hm)
        · exact Or.inr (by simp [h.trans hm])
      · exact Or.inr (List.mem_cons_of_mem _ h)
    · exact h2.trans (min_le_left a x)
    · intro y hy
      rcases List.mem_cons.1 hy with rfl | hy
      · exact h2.trans (min_le_right a y)
      · exact h3 y hy

/-- `repeat_tensor` is the identity when the tensor already has the target
number of rows. -/
theorem repeat_tensor_eq_self {α : Type} (b n : Nat) (x : List α)
    (h : x.length = n) : repeat_tensor b n x = x := by
  simp [repeat_tensor, h]

/-- Dropping `k` elements and taking one yields the element at `k`. -/
theorem drop_take_one {α : Type} (r : List α) (k : Nat) (d : α)
    (h : k < r.length) : (r.drop k).take 1 = [r.getD k d] := by
  induction r generalizing k with
  | nil => simp at h
  | cons a l ih =>
    cases k with
    | zero => simp
    | succ k => simpa using ih k (by simpa using h)

/-- `tf.slice(x, [0, k], [-1, 1])` extracts exactly the column at `k`. -/
theorem tfSlice2_one_column {α : Type} (x : List (List α)) (k : Nat) (d : α)
    (h : ∀ row ∈ x, k < row.length) :
    tfSlice2 x 0 k (-1) 1 = x.map (fun row => [row.getD k d]) := by
  have hs : tfSlice2 x 0 k (-1) 1 = x.map (fun r => (r.drop k).take 1) := by
    simp [tfSlice2]
  rw [hs]
  exact List.map_congr_left (fun r hr => drop_take_one r k d (h r hr))

theorem cumsumExclusive_length (acc : Int) (l : List Int) :
    (cumsumExclusive acc l).length = l.length := by
  induction l generalizing acc with
  | nil => rfl
  | cons x xs ih => simp [cumsumExclusive, ih]

/-- The exclusive cumulative sum at `p` is the seed plus the sum of the
first `p` entries. -/
theorem cumsumExclusive_getD (l : List Int) : ∀ (acc : Int) (p : Nat),
    p < l.length →
    (cumsumExclusive acc l).getD p 0 = acc + (l.take p).sum := by
  induction l with
  | nil => intro acc p hp; simp at hp
  | cons x xs ih =>
    intro acc p hp
    cases p with
    | zero => simp [cumsumExclusive]
    | succ p =>
      simp only [cumsumExclusive, List.getD_cons_succ, List.take_succ_cons,
        List.sum_cons]
      rw [ih (acc + x) p (by simpa using hp)]
      ring

/-- `getD` through a `map`, given an in-range index. -/
theorem getD_map_of_lt {α β : Type} (f : α → β) (l : List α) (n : Nat)
    (d : β) (d' : α) (h : n < l.length) :
    (l.map f).getD n d = f (l.getD n d') := by
  rw [List.getD_eq_getElem _ d (by simpa using h),
    List.getD_eq_getElem _ d' h, List.getElem_map]

/-- `getD` through a `map` over a `zip`, given an in-range index. -/
theorem zip_map_row {α β γ : Type} (f : α → β → γ) (l₁ : List α)
    (l₂ : List β) (r : Nat) (d : γ) (d₁ : α) (d₂ : β)
    (h : r < (l₁.zip l₂).length) :
    ((l₁.zip l₂).map (fun p => f p.1 p.2)).getD r d
      = f (l₁.getD r d₁) (l₂.getD r d₂) := by
  have h1 : r < l₁.length := by simp at h; omega
  have h2 : r < l₂.length := by simp at h; omega
  rw [getD_map_of_lt _ _ r d (d₁, d₂) h, List.getD_eq_getElem _ _ h,
    List.getElem_zip, List.getD_eq_getElem _ _ h1,
    List.getD_eq_getElem _ _ h2]

/-- `true` is absent from the first `p` entries iff every in-range position
below `p` reads `false`. -/
theorem not_mem_take_iff (locs : List Bool) (p : Nat)
    (hpl : p ≤ locs.length) :
    true ∉ locs.take p ↔ ∀ k < p, locs.getD k false = false := by
  constructor
  · intro hmem k hk
    have hkl : k < locs.length := lt_of_lt_of_le hk hpl
    rw [List.getD_eq_getElem _ _ hkl]
    cases hb : locs[k] with
    | false => rfl
    | true =>
      exfalso
      apply hmem
      have hkt : k < (locs.take p).length := by simp; omega
      have hv : (locs.take p)[k] = locs[k] := List.getElem_take _
      have := List.getElem_mem hkt
      rw [hv, hb] at this
      exact this
  · intro hall hmem
    obtain ⟨k, hk, hkv⟩ := List.getElem_of_mem hmem
    have hkp : k < p := by simp at hk; omega
    have hkl : k < locs.length := lt_of_lt_of_le hkp hpl
    have hfalse := hall k hkp
    rw [List.getD_eq_getElem _ _ hkl] at hfalse
    rw [List.getElem_take] at hkv
    simp [hkv] at hfalse

theorem endMaskRow_length (e : Int) (ids : List Int) (mask : List Bool) :
    (endMaskRow e ids mask).length
      = (end_locationsRow e ids mask).length := by
  simp [endMaskRow, cumsumExclusive_length]

/-- Characterization of the output-mask row: position `p` is valid iff no
end-token location occurs strictly before `p`. -/
theorem endMaskRow_true_iff (e : Int) (ids : List Int) (mask : List Bool)
    (p : Nat) (hp : p < (endMaskRow e ids mask).length) :
    ((endMaskRow e ids mask).getD p false = true ↔
      ∀ k < p, (end_locationsRow e ids mask).getD k false = false) := by
  have hpl : p < (end_locationsRow e ids mask).length := by
    rw [← endMaskRow_length e ids mask]; exact hp
  have hov : p < (cumsumExclusive 0 ((end_locationsRow e ids mask).map
      (fun b => if b then (1 : Int) else 0))).length := by
    rw [cumsumExclusive_length]; simpa using hpl
  have hrw : (endMaskRow e ids mask).getD p false
      = !decide ((cumsumExclusive 0 ((end_locationsRow e ids mask).map
          (fun b => if b then (1 : Int) else 0))).getD p 0 ≠ 0) := by
    show ((cumsumExclusive 0 ((end_locationsRow e ids mask).map
      (fun b => if b then (1 : Int) else 0))).map
        (fun n => !decide (n ≠ 0))).getD p false = _
    rw [getD_map_of_lt _ _ p false 0 hov]
  rw [hrw, cumsumExclusive_getD _ 0 p (by simpa using hpl)]
  rw [← List.map_take, boolIndicatorSum]
  rw [← not_mem_take_iff (end_locationsRow e ids mask) p (le_of_lt hpl)]
  rw [← List.count_eq_zero]
  simp

/-- Row `r` of the output mask of `generate_step` with an end token is the
`endMaskRow` computation on the sampler's token ids and the original
mask. -/
theorem generate_step_mask_some {H L V : Type} (bb : Backbone H L V)
    (sampler : Sampler H L V) (inputs : GenerateInputs) (e : Int) :
    (generate_step bb sampler inputs (some e)).decoder_padding_mask
      = (((generate_step bb sampler inputs (some e)).decoder_token_ids).zip
          inputs.decoder_padding_mask).map
            (fun p => endMaskRow e p.1 p.2) := rfl

/-- The output mask of `generate_step` without an end token is all-`true`
with the shape of the returned token ids. -/
theorem generate_step_mask_none {H L V : Type} (bb : Backbone H L V)
    (sampler : Sampler H L V) (inputs : GenerateInputs) :
    (generate_step bb sampler inputs none).decoder_padding_mask
      = (generate_step bb sampler inputs none).decoder_token_ids.map
          (fun row => row.map (fun _ => true)) := rfl

/-! ### Claim theorems (continued) -/

/-- **C1**: each invocation of the `next` closure slices exactly one token
from the prompt — the column at `index - 1` — and (when the sampler has not
widened the batch) invokes `call_decoder_with_cache` on that single-token
window with self-attention update index `index - 1` and cross-attention
update index `None`, returning the squeezed single-position logits and
hidden states together with the updated self-attention cache. -/
theorem generate_step_next_single_token {H L V : Type} (bb : Backbone H L V)
    (batch_size : Nat) (encHS : HS H) (encMask : Mask) (crossCache : Cache L)
    (prompt : List (List Int)) (cache : Cache L) (index : Int)
    (W : List (List Int))
    (_hidx : 1 ≤ index)
    (hrow : ∀ row ∈ prompt, (index - 1).toNat < row.length)
    (hbatch : prompt.length = batch_size)
    (henc : encHS.length = batch_size)
    (hm : encMask.length = batch_size)
    (hcc : crossCache.length = batch_size)
    (hW : W = prompt.map (fun row => [row.getD (index - 1).toNat 0])) :
    generate_step_nextT bb batch_size encHS encMask crossCache prompt cache
        index
      = ((tfSqueeze1 (call_decoder_with_cache bb encHS encMask W cache
            (some (index - 1)) crossCache none).1,
          tfSqueeze1 (call_decoder_with_cache bb encHS encMask W cache
            (some (index - 1)) crossCache none).2.1,
          (call_decoder_with_cache bb encHS encMask W cache
            (some (index - 1)) crossCache none).2.2.1),
         Event.decoderStep W (some (index - 1)) none)
      ∧ W.length = prompt.length ∧ ∀ r ∈ W, r.length = 1 := by
  subst hW
  have hslice : tfSlice2 prompt 0 (index - 1).toNat (-1) 1
      = prompt.map (fun row => [row.getD (index - 1).toNat 0]) :=
    tfSlice2_one_column prompt _ 0 hrow
  refine ⟨?_, by simp, ?_⟩
  · simp only [generate_step_nextT, hslice, List.length_map, hbatch]
    rw [repeat_tensor_eq_self _ _ _ henc, repeat_tensor_eq_self _ _ _ hm,
      repeat_tensor_eq_self _ _ _ hcc]
  · intro r hr
    obtain ⟨row, -, rfl⟩ := List.mem_map.1 hr
    rfl

/-- Witness for **C1** at a concrete input: the decoder call recorded for
`next` at index 2 is on the one-token window `[[3]]` with self-attention
update index 1 and no cross-attention update. -/
theorem generate_step_next_single_token_witness :
    (generate_step_nextT testBackbone 1 [[1]] [[true]] [[0, 0]]
        [[2, 3, 4]] [[0, 0]] 2).2
      = Event.decoderStep [[3]] (some 1) none := by
  have h := generate_step_next_single_token testBackbone 1 [[1]] [[true]]
    [[0, 0]] [[2, 3, 4]] [[0, 0]] 2 [[3]] (by decide) (by decide) rfl rfl
    rfl rfl (by decide)
  rw [h.1]
  decide

/-- **C2**: the starting index `generate_step` hands to the sampler is the
minimum over batch rows of the count of `true` entries of the decoder
padding mask. -/
theorem generate_step_start_index {H L V : Type} (bb : Backbone H L V)
    (sampler : Sampler H L V) (inputs : GenerateInputs) (e : Option Int)
    (hne : inputs.decoder_padding_mask ≠ [])
    (hbound : ∀ row ∈ inputs.decoder_padding_mask,
      (row.length : Int) ≤ 2147483647) :
    ∃ I : Int,
      (generate_stepT bb sampler inputs e).2.getLast?
          = some (.samplerCall inputs.decoder_token_ids I)
        ∧ (∀ row ∈ inputs.decoder_padding_mask, I ≤ (row.count true : Int))
        ∧ ∃ row ∈ inputs.decoder_padding_mask,
            I = (row.count true : Int) := by
  set mask := inputs.decoder_padding_mask with hmask
  have hcongr : mask.map
        (fun row => (row.map (fun b => if b then (1 : Int) else 0)).sum)
      = mask.map (fun row => (row.count true : Int)) :=
    List.map_congr_left (fun row _ => boolIndicatorSum row)
  refine ⟨reduceMin (mask.map
    (fun row => (row.map (fun b => if b then (1 : Int) else 0)).sum)),
    ?_, ?_, ?_⟩
  · simp only [generate_stepT]
    exact List.getLast?_concat _
  · intro row hrow
    have := (foldl_min_spec
      (mask.map (fun row => (row.count true : Int))) 2147483647).2.2
    rw [reduceMin, hcongr]
    exact this _ (List.mem_map_of_mem _ hrow)
  · obtain ⟨h1, h2, h3⟩ := foldl_min_spec
      (mask.map (fun row => (row.count true : Int))) 2147483647
    rw [reduceMin, hcongr]
    rcases h1 with h | h
    · rcases List.exists_mem_of_ne_nil mask hne with ⟨row, hrow⟩
      refine ⟨row, hrow, ?_⟩
      have hb : ((row.count true : Int)) ≤ 2147483647 :=
        le_trans (by exact_mod_cast List.count_le_length true row)
          (hbound row hrow)
      have hle := h3 _ (List.mem_map_of_mem _ hrow)
      linarith
    · obtain ⟨row, hrow, hv⟩ := List.mem_map.1 h
      exact ⟨row, hrow, hv.symm⟩

/-- Witness for **C2** at the concrete batch of the spec: rows with
known-prefix lengths 2 and 4 start generation at shared index 2. -/
theorem generate_step_start_index_witness :
    (∃ I : Int,
      (generate_stepT testBackbone testSampler
          ⟨[[0], [0]], [[true], [true]],
           [[2, 0, 1, 1, 1], [2, 0, 3, 4, 1]],
           [[true, true, false, false, false],
            [true, true, true, true, false]]⟩ none).2.getLast?
          = some (.samplerCall [[2, 0, 1, 1, 1], [2, 0, 3, 4, 1]] I)
        ∧ (∀ row ∈ [[true, true, false, false, false],
            [true, true, true, true, false]], I ≤ (row.count true : Int))
        ∧ ∃ row ∈ [[true, true, false, false, false],
            [true, true, true, true, false]], I = (row.count true : Int))
    ∧ (generate_stepT testBackbone testSampler
        ⟨[[0], [0]], [[true], [true]],
         [[2, 0, 1, 1, 1], [2, 0, 3, 4, 1]],
         [[true, true, false, false, false],
          [true, true, true, true, false]]⟩ none).2.getLast?
        = some (.samplerCall [[2, 0, 1, 1, 1], [2, 0, 3, 4, 1]] 2) :=
  ⟨generate_step_start_index testBackbone testSampler
      ⟨[[0], [0]], [[true], [true]],
       [[2, 0, 1, 1, 1], [2, 0, 3, 4, 1]],
       [[true, true, false, false, false],
        [true, true, true, true, false]]⟩ none (by decide) (by decide),
   by decide⟩

/-- **C5**: `_build_cache` performs exactly one encoder pass and exactly one
decoder pass — the latter over the entire decoder prompt with both cache
update indices `0`, starting from the zero-initialized caches — and returns
the seeded hidden states, the encoder hidden states and both seeded
caches. -/
theorem build_cache_single_pass {H L V : Type} (bb : Backbone H L V)
    (encoder_token_ids : List (List Int)) (encoder_padding_mask : Mask)
    (decoder_token_ids : List (List Int)) :
    (_build_cacheT bb encoder_token_ids encoder_padding_mask
        decoder_token_ids).2
        = [.encoderPass encoder_token_ids encoder_padding_mask,
           .decoderStep decoder_token_ids (some 0) (some 0)]
      ∧ ((_build_cacheT bb encoder_token_ids encoder_padding_mask
          decoder_token_ids).2.countP
            (fun ev => match ev with
              | .encoderPass _ _ => true | _ => false)) = 1
      ∧ ((_build_cacheT bb encoder_token_ids encoder_padding_mask
          decoder_token_ids).2.countP
            (fun ev => match ev with
              | .decoderStep _ _ _ => true | _ => false)) = 1
      ∧ _build_cache bb encoder_token_ids encoder_padding_mask
          decoder_token_ids
        = ((call_decoder_with_cache bb
              (call_encoder bb encoder_token_ids encoder_padding_mask)
              encoder_padding_mask decoder_token_ids
              (List.replicate encoder_token_ids.length
                (List.replicate bb.numLayers bb.zeroSelfCacheSlice)) (some 0)
              (List.replicate encoder_token_ids.length
                (List.replicate bb.numLayers bb.zeroCrossCacheSlice))
              (some 0)).2.1,
           call_encoder bb encoder_token_ids encoder_padding_mask,
           (call_decoder_with_cache bb
              (call_encoder bb encoder_token_ids encoder_padding_mask)
              encoder_padding_mask decoder_token_ids
              (List.replicate encoder_token_ids.length
                (List.replicate bb.numLayers bb.zeroSelfCacheSlice)) (some 0)
              (List.replicate encoder_token_ids.length
                (List.replicate bb.numLayers bb.zeroCrossCacheSlice))
              (some 0)).2.2.1,
           (call_decoder_with_cache bb
              (call_encoder bb encoder_token_ids encoder_padding_mask)
              encoder_padding_mask decoder_token_ids
              (List.replicate encoder_token_ids.length
                (List.replicate bb.numLayers bb.zeroSelfCacheSlice)) (some 0)
              (List.replicate encoder_token_ids.length
                (List.replicate bb.numLayers bb.zeroCrossCacheSlice))
              (some 0)).2.2.2) :=
  ⟨rfl, rfl, rfl, rfl⟩

/-- **C6**: when `cross_attention_cache_update_index` is `None`,
`call_decoder_with_cache` returns the given cross-attention cache unchanged
(and symmetrically for the self-attention cache when its update index is
`None`), and every decoder invocation recorded for the `next` closure has
cross-attention update index `None` — so the cross-attention cache built by
`_build_cache` passes through the whole generation unmodified. -/
theorem cross_attention_cache_frame {H L V : Type} (bb : Backbone H L V) :
    (∀ (encHS : HS H) (encMask : Mask) (decIds : List (List Int))
        (sc : Cache L) (si : Option Int) (cc : Cache L),
      (call_decoder_with_cache bb encHS encMask decIds sc si cc none).2.2.2
        = cc)
    ∧ (∀ (encHS : HS H) (encMask : Mask) (decIds : List (List Int))
        (sc : Cache L) (cc : Cache L) (ci : Option Int),
      (call_decoder_with_cache bb encHS encMask decIds sc none cc ci).2.2.1
        = sc)
    ∧ (∀ (batch_size : Nat) (encHS : HS H) (encMask : Mask)
        (crossCache : Cache L) (prompt : List (List Int)) (cache : Cache L)
        (index : Int), ∃ W,
      (generate_step_nextT bb batch_size encHS encMask crossCache prompt
          cache index).2
        = Event.decoderStep W (some (index - 1)) none) := by
  refine ⟨fun _ _ _ _ _ _ => rfl, fun _ _ _ _ _ _ => rfl,
    fun batch_size encHS encMask crossCache prompt cache index => ?_⟩
  exact ⟨tfSlice2 prompt 0 (index - 1).toNat (-1) 1, rfl⟩

/-- **C8**: `call_decoder_with_cache` is deterministic — two invocations
with equal encoder hidden states, encoder padding masks, decoder token ids,
caches and update indices return identical logits, hidden states and
updated caches. -/
theorem call_decoder_with_cache_deterministic {H L V : Type}
    (bb : Backbone H L V)
    (e₁ e₂ : HS H) (m₁ m₂ : Mask) (d₁ d₂ : List (List Int))
    (sc₁ sc₂ : Cache L) (si₁ si₂ : Option Int) (cc₁ cc₂ : Cache L)
    (ci₁ ci₂ : Option Int)
    (he : e₁ = e₂) (hm : m₁ = m₂) (hd : d₁ = d₂) (hsc : sc₁ = sc₂)
    (hsi : si₁ = si₂) (hcc : cc₁ = cc₂) (hci : ci₁ = ci₂) :
    call_decoder_with_cache bb e₁ m₁ d₁ sc₁ si₁ cc₁ ci₁ =
      call_decoder_with_cache bb e₂ m₂ d₂ sc₂ si₂ cc₂ ci₂ := by
  subst he hm hd hsc hsi hcc hci; rfl

/-- Witness for **C8** at a concrete input. -/
theorem call_decoder_with_cache_deterministic_witness :
    call_decoder_with_cache testBackbone [[1]] [[true]] [[5]]
        [[0, 0]] (some 0) [[0, 0]] (some 0) =
      call_decoder_with_cache testBackbone [[1]] [[true]] [[5]]
        [[0, 0]] (some 0) [[0, 0]] (some 0) :=
  call_decoder_with_cache_deterministic testBackbone _ _ _ _ _ _ _ _ _ _
    _ _ _ _ rfl rfl rfl rfl rfl rfl rfl

/-- **C9**: a scalar (rank-0 / plain string) input to `generate` gets a
synthetic batch dimension on input and has it removed on output, yielding a
single non-batched string; already-batched input passes through with no
dimension added or removed. -/
theorem generate_scalar_in_scalar_out :
    (∀ s, _normalize_generate_inputs (.value (.str s))
        = ([.value (.tensor1 [s])], true))
    ∧ (∀ s, _normalize_generate_inputs (.value (.tensor0 s))
        = ([.value (.tensor1 [s])], true))
    ∧ (∀ t, _normalize_generate_outputs [[t]] true = some (.str t))
    ∧ (∀ l, _normalize_generate_inputs (.value (.strList l))
        = ([.value (.tensor1 l)], false))
    ∧ (∀ l, _normalize_generate_inputs (.value (.tensor1 l))
        = ([.value (.tensor1 l)], false))
    ∧ (∀ (b : List String), _normalize_generate_outputs [b] false
        = some (.strList b)) := by
  refine ⟨fun s => rfl, fun s => rfl, fun t => rfl, fun l => rfl,
    fun l => rfl, fun b => ?_⟩
  simp [_normalize_generate_outputs]

/-- **C10**: `compile` always clears the cached generate-function handle;
`make_generate_function` rebuilds and stores it when the handle is empty,
and returns the stored handle with the state unchanged whenever one is
present — a stale compiled function is never reused after
reconfiguration. -/
theorem compile_invalidates_generate_function :
    (∀ (s : LMState) (re jc : Bool) (sam : String) (xla : Bool),
      (compile s re jc sam xla).generate_function = none)
    ∧ (∀ s : LMState, s.generate_function = none →
      (make_generate_function s).2.generate_function
        = some (make_generate_function s).1)
    ∧ (∀ (s : LMState) (f : GenFn), s.generate_function = some f →
      make_generate_function s = (f, s)) := by
  refine ⟨fun s re jc sam xla => rfl, fun s h => ?_, fun s f h => ?_⟩
  · simp [make_generate_function, h]
  · simp [make_generate_function, h]

/-- Witness for **C10** at a concrete state: a stored handle is returned
unchanged. -/
theorem compile_invalidates_generate_function_witness :
    make_generate_function ⟨some .eager, false, true, "top_k"⟩
      = (.eager, ⟨some .eager, false, true, "top_k"⟩) :=
  compile_invalidates_generate_function.2.2 _ _ rfl

/-- **C3**: with an end token configured, the decoder padding mask returned
by `generate_step` is `true` at every position at or before the first
position holding the end token where the original mask was `false`, and
`false` at every position strictly after it, regardless of the token values
written there (the sampler is universally quantified). -/
theorem generate_step_end_mask {H L V : Type} (bb : Backbone H L V)
    (sampler : Sampler H L V) (inputs : GenerateInputs) (e : Int)
    (r j : Nat)
    (hr : r < (generate_step bb sampler inputs
      (some e)).decoder_padding_mask.length)
    (hj : (end_locationsRow e
        ((generate_step bb sampler inputs (some e)).decoder_token_ids.getD
          r [])
        (inputs.decoder_padding_mask.getD r [])).getD j false = true)
    (hfirst : ∀ k < j, (end_locationsRow e
        ((generate_step bb sampler inputs (some e)).decoder_token_ids.getD
          r [])
        (inputs.decoder_padding_mask.getD r [])).getD k false = false) :
    ∀ p < ((generate_step bb sampler inputs
        (some e)).decoder_padding_mask.getD r []).length,
      ((generate_step bb sampler inputs
          (some e)).decoder_padding_mask.getD r []).getD p false
        = decide (p ≤ j) := by
  intro p hp
  rw [generate_step_mask_some] at hr hp ⊢
  have hr' : r < (((generate_step bb sampler inputs
      (some e)).decoder_token_ids).zip inputs.decoder_padding_mask).length := by
    simpa using hr
  rw [zip_map_row (fun a b => endMaskRow e a b) _ _ r [] [] [] hr'] at hp ⊢
  rcases le_or_lt p j with hpj | hjp
  · rw [decide_eq_true (by exact hpj)]
    exact (endMaskRow_true_iff e _ _ p hp).2
      (fun k hk => hfirst k (lt_of_lt_of_le hk hpj))
  · rw [decide_eq_false (by omega)]
    cases hval : (endMaskRow e
        ((generate_step bb sampler inputs (some e)).decoder_token_ids.getD
          r [])
        (inputs.decoder_padding_mask.getD r [])).getD p false with
    | false => rfl
    | true =>
      exfalso
      have hall := (endMaskRow_true_iff e _ _ p hp).1 hval
      have := hall j hjp
      rw [hj] at this
      exact Bool.true_eq_false.mp this

/-- Witness for **C3** at a concrete input: with end token `5`, ids
`[2, 9, 5, 7]` and original mask `[true, false, false, false]`, the first
end location is position 2 and the output mask at position 3 is `false`. -/
theorem generate_step_end_mask_witness :
    ((generate_step testBackbone testSampler
        ⟨[[0]], [[true]], [[2, 9, 5, 7]], [[true, false, false, false]]⟩
        (some 5)).decoder_padding_mask.getD 0 []).getD 3 false
      = decide (3 ≤ 2) :=
  generate_step_end_mask testBackbone testSampler
    ⟨[[0]], [[true]], [[2, 9, 5, 7]], [[true, false, false, false]]⟩
    5 0 2 (by decide) (by decide) (by decide) 3 (by decide)

/-- **C4**: every row of the decoder padding mask returned by
`generate_step` — with or without an end token — is monotonic: once `false`
at a position, it is `false` at every later position. -/
theorem generate_step_mask_monotonic {H L V : Type} (bb : Backbone H L V)
    (sampler : Sampler H L V) (inputs : GenerateInputs) (e : Option Int)
    (r p q : Nat) (hpq : p < q)
    (hq : q < ((generate_step bb sampler inputs
      e).decoder_padding_mask.getD r []).length)
    (hfalse : ((generate_step bb sampler inputs
      e).decoder_padding_mask.getD r []).getD p false = false) :
    ((generate_step bb sampler inputs e).decoder_padding_mask.getD r
      []).getD q false = false := by
  cases e with
  | none =>
    exfalso
    rw [generate_step_mask_none] at hq hfalse
    by_cases hrl : r < (generate_step bb sampler inputs
        none).decoder_token_ids.length
    · rw [getD_map_of_lt _ _ r [] [] hrl] at hq hfalse
      rw [getD_map_of_lt _ _ p false 0 (by simpa using lt_trans hpq hq)]
        at hfalse
      exact Bool.true_eq_false.mp hfalse
    · rw [List.getD_eq_default _ _ (by simpa using le_of_not_lt hrl)] at hq
      simp at hq
  | some e =>
    rw [generate_step_mask_some] at hq hfalse ⊢
    by_cases hr' : r < (((generate_step bb sampler inputs
        (some e)).decoder_token_ids).zip inputs.decoder_padding_mask).length
    · rw [zip_map_row (fun a b => endMaskRow e a b) _ _ r [] [] [] hr']
        at hq hfalse ⊢
      cases hval : (endMaskRow e
          ((generate_step bb sampler inputs (some e)).decoder_token_ids.getD
            r [])
          (inputs.decoder_padding_mask.getD r [])).getD q false with
      | false => rfl
      | true =>
        exfalso
        have hall := (endMaskRow_true_iff e _ _ q hq).1 hval
        have := (endMaskRow_true_iff e _ _ p (lt_trans hpq hq)).2
          (fun k hk => hall k (lt_trans hk hpq))
        rw [hfalse] at this
        exact Bool.true_eq_false.mp this.symm
    · exfalso
      rw [List.getD_eq_default _ _ (by simpa using le_of_not_lt hr')] at hq
      simp at hq

/-- Witness for **C4** at a concrete input: the output mask row
`[true, true, true, false, false]` is `false` at position 4 because it is
`false` at position 3. -/
theorem generate_step_mask_monotonic_witness :
    ((generate_step testBackbone testSampler
        ⟨[[0]], [[true]], [[2, 9, 5, 7, 8]],
         [[true, false, false, false, false]]⟩
        (some 5)).decoder_padding_mask.getD 0 []).getD 4 false = false :=
  generate_step_mask_monotonic testBackbone testSampler
    ⟨[[0]], [[true]], [[2, 9, 5, 7, 8]],
     [[true, false, false, false, false]]⟩
    (some 5) 0 3 4 (by decide) (by decide) (by decide)

theorem writeColumn_length (p : List (List Int)) (m : Mask) (i : Nat)
    (t : List Int) : (writeColumn p m i t).length = p.length := by
  simp [writeColumn]

theorem writeColumn_row_length (p : List (List Int)) (m : Mask) (i : Nat)
    (t : List Int) (r : Nat) :
    ((writeColumn p m i t).getD r []).length = (p.getD r []).length := by
  by_cases hr : r < p.length
  · unfold writeColumn
    rw [getD_map_of_lt _ _ r [] 0 (by simpa using hr)]
    have hrange : (List.range p.length).getD r 0 = r := by
      rw [List.getD_eq_getElem _ _ (by simpa using hr)]
      exact List.getElem_range _ _
    rw [hrange]
    split
    · rfl
    · simp
  · rw [List.getD_eq_default _ _
      (by rw [writeColumn_length]; exact le_of_not_lt hr),
      List.getD_eq_default _ _ (le_of_not_lt hr)]

/-- The spec-modelled sampler loop preserves the prompt buffer's shape. -/
theorem samplerLoopAux_shape {H L V : Type} (select : List V → List Int)
    (nextFn : NextFn H L V) (mask : Mask) (etid : Option Int) :
    ∀ (fuel : Nat) (prompt : List (List Int)) (cache : Cache L)
      (index : Int),
      (samplerLoopAux select nextFn mask etid fuel prompt cache
        index).1.length = prompt.length
      ∧ ∀ r, ((samplerLoopAux select nextFn mask etid fuel prompt cache
          index).1.getD r []).length = (prompt.getD r []).length := by
  intro fuel
  induction fuel with
  | zero => exact fun prompt cache index => ⟨rfl, fun r => rfl⟩
  | succ fuel ih =>
    intro prompt cache index
    unfold samplerLoopAux
    split
    · exact ⟨rfl, fun r => rfl⟩
    · obtain ⟨h1, h2⟩ := ih
        (writeColumn prompt mask index.toNat
          (select (nextFn prompt cache index).1))
        (nextFn prompt cache index).2.2 (index + 1)
      exact ⟨by rw [h1, writeColumn_length],
        fun r => by rw [h2 r, writeColumn_row_length]⟩

/-- With no end token configured the spec-modelled loop never stops early:
it consumes all its fuel, advancing the index one per step. -/
theorem samplerLoopAux_none_index {H L V : Type} (select : List V → List Int)
    (nextFn : NextFn H L V) (mask : Mask) :
    ∀ (fuel : Nat) (prompt : List (List Int)) (cache : Cache L)
      (index : Int),
      (samplerLoopAux select nextFn mask none fuel prompt cache index).2
        = index + fuel := by
  intro fuel
  induction fuel with
  | zero => intro p c i; simp [samplerLoopAux]
  | succ fuel ih =>
    intro p c i
    unfold samplerLoopAux
    rw [if_neg (by simp [specDone])]
    rw [ih]
    push_cast
    ring

/-- **C7**: with no end token configured (`end_token_id = None`),
`generate_step` driven by the spec-modelled sampler degrades gracefully:
the returned decoder padding mask is all-`true` with the same shape as the
returned decoder token ids, the returned token ids keep the static decoder
shape of the prompt, and the sampler loop runs all the way to the static
decoder maximum length. -/
theorem generate_step_no_end_token {H L V : Type} (bb : Backbone H L V)
    (select : List V → List Int) (inputs : GenerateInputs) :
    ((generate_step bb (specSampler select) inputs
        none).decoder_padding_mask
      = (generate_step bb (specSampler select) inputs
          none).decoder_token_ids.map (fun row => row.map (fun _ => true)))
    ∧ (generate_step bb (specSampler select) inputs
        none).decoder_token_ids.length = inputs.decoder_token_ids.length
    ∧ (∀ r, ((generate_step bb (specSampler select) inputs
        none).decoder_token_ids.getD r []).length
          = (inputs.decoder_token_ids.getD r []).length)
    ∧ (∀ (nextFn : NextFn H L V) (prompt : List (List Int))
        (cache : Cache L) (index : Int) (mask : Mask),
        0 ≤ index → index ≤ ((prompt.headD []).length : Int) →
        (specSamplerRun select nextFn prompt cache index mask none).2
          = ((prompt.headD []).length : Int)) := by
  refine ⟨generate_step_mask_none bb (specSampler select) inputs,
    ?_, ?_, ?_⟩
  · exact (samplerLoopAux_shape select _ _ none _ _ _ _).1
  · exact fun r => (samplerLoopAux_shape select _ _ none _ _ _ _).2 r
  · intro nextFn prompt cache index mask h0 hle
    unfold specSamplerRun
    rw [samplerLoopAux_none_index]
    omega

/-- Witness for **C7** at a concrete input: with no end token the loop
stops exactly at the static maximum length 3. -/
theorem generate_step_no_end_token_witness :
    ((generate_step testBackbone
        (specSampler (fun l : List Int => l.map (fun _ => 7)))
        ⟨[[0]], [[true]], [[2, 1, 1]], [[true, false, false]]⟩
        none).decoder_padding_mask
      = (generate_step testBackbone
          (specSampler (fun l : List Int => l.map (fun _ => 7)))
          ⟨[[0]], [[true]], [[2, 1, 1]], [[true, false, false]]⟩
          none).decoder_token_ids.map (fun row => row.map (fun _ => true)))
    ∧ (specSamplerRun (fun l : List Int => l.map (fun _ => 7))
        (fun _ _ _ => (([] : List Int), ([] : List Int),
          ([] : Cache Int)))
        [[2, 1, 1]] [] 1 [[true, false, false]] none).2 = 3 := by
  have h := generate_step_no_end_token testBackbone
    (fun l : List Int => l.map (fun _ => 7))
    ⟨[[0]], [[true]], [[2, 1, 1]], [[true, false, false]]⟩
  exact ⟨h.1, h.2.2.2
    (fun _ _ _ => (([] : List Int), ([] : List Int), ([] : Cache Int)))
    [[2, 1, 1]] [] 1 [[true, false, false]] (by decide) (by decide)⟩

end BartSeq2SeqLM
